import Mathlib

set_option maxRecDepth 100000

/-!
Verification of a Conway's Game of Life implementation: a `Cell` holding one
boolean life state, and a toroidal `Grid` of cells with synchronous
generation advance.  The definitions below are a shallow embedding of the
Python sources (`src/models/cell.py`, `src/models/grid.py`,
`src/utils/patterns.py`): Python `int` becomes `Int`, Python `%` and `//`
(floor semantics, which agree with Lean's Euclidean `%` and `/` on the
positive divisors used here) become `%` and `/`, and the mutable list of
lists of cells becomes a `List (List Cell)` threaded through state-passing
versions of the methods.  Where the Python source would raise an exception
(indexing an ill-formed grid, or `x % 0`), `List.getD` supplies a dead-cell
default and `Int` modulo is total; all theorems below that touch indexing
carry a well-formedness hypothesis (`Grid.Wf`) that keeps them inside the
exception-free region of the source.
-/

/-- One cell of the board (source class `Cell`): a single boolean state. -/
structure Cell where
  is_alive : Bool
deriving DecidableEq

/-- Source `Cell.__init__`: a freshly constructed cell is dead by default. -/
def Cell.init : Cell := ⟨false⟩

/-- Source `Cell.toggle`: flips the state and returns the new state
(here: the updated cell paired with the returned boolean). -/
def Cell.toggle (c : Cell) : Cell × Bool :=
  ((⟨!c.is_alive⟩ : Cell), !c.is_alive)

/-- Source `Cell.will_be_alive`: the Game of Life birth/survival rule
applied to the current state and a live-neighbor count. -/
def Cell.will_be_alive (c : Cell) (live_neighbors : Nat) : Bool :=
  if c.is_alive then decide (2 ≤ live_neighbors ∧ live_neighbors ≤ 3)
  else live_neighbors == 3

/-- The board (source class `Grid`): dimensions, the dense cell storage
(row-major: `_grid[y][x]`), and the generation counter. -/
@[ext] structure Grid where
  width : Int
  height : Int
  _grid : List (List Cell)
  generation : Nat
deriving DecidableEq

/-- Source `Grid.__init__`: storage of `height` rows of `width` dead cells
(`range` of a non-positive bound is empty, as in Python), generation 0.
No validation of the dimensions is performed, exactly as in the source. -/
def Grid.init (width height : Int) : Grid :=
  { width := width, height := height,
    _grid := List.replicate height.toNat (List.replicate width.toNat Cell.init),
    generation := 0 }

/-- Source `Grid.get_cell`: wraps both coordinates modulo the dimensions,
then reads `_grid[y][x]`. -/
def Grid.get_cell (g : Grid) (x y : Int) : Cell :=
  let x := x % g.width
  let y := y % g.height
  (g._grid.getD y.toNat []).getD x.toNat Cell.init

/-- Source `Grid.set_cell`: wraps both coordinates, then overwrites the
state of `_grid[y][x]`. -/
def Grid.set_cell (g : Grid) (x y : Int) (alive : Bool) : Grid :=
  let x := x % g.width
  let y := y % g.height
  { g with _grid :=
      g._grid.set y.toNat ((g._grid.getD y.toNat []).set x.toNat ⟨alive⟩) }

/-- Source `Grid.toggle_cell`: wraps both coordinates, toggles the cell at
`_grid[y][x]` in place and returns the new state (here: updated grid paired
with the returned boolean). -/
def Grid.toggle_cell (g : Grid) (x y : Int) : Grid × Bool :=
  let x := x % g.width
  let y := y % g.height
  let t := ((g._grid.getD y.toNat []).getD x.toNat Cell.init).toggle
  ({ g with _grid :=
      g._grid.set y.toNat ((g._grid.getD y.toNat []).set x.toNat t.1) }, t.2)

/-- Source `Grid.count_live_neighbors`: iterates `dy` then `dx` over
`[-1, 0, 1]`, skips `(0, 0)`, wraps the neighbor coordinates and counts the
live ones by direct `_grid[ny][nx]` access. -/
def Grid.count_live_neighbors (g : Grid) (x y : Int) : Nat :=
  [(-1 : Int), 0, 1].foldl (fun count dy =>
    [(-1 : Int), 0, 1].foldl (fun count dx =>
      if dx = 0 ∧ dy = 0 then count
      else
        let nx := (x + dx) % g.width
        let ny := (y + dy) % g.height
        if ((g._grid.getD ny.toNat []).getD nx.toNat Cell.init).is_alive then
          count + 1
        else count) count) 0

/-- The row-major coordinate enumeration `for y in range(h): for x in
range(w)` shared by the source's `next_generation`, `clear` and
`get_live_cells` loops. -/
def rowMajorCoords (w h : Nat) : List (Int × Int) :=
  (List.range h).flatMap (fun (y : Nat) =>
    (List.range w).map (fun (x : Nat) => ((x : Int), (y : Int))))

/-- Source `Grid.next_generation`: first pass computes every cell's next
state from the current grid into `next_states` (the Python dict, in
insertion order), second pass applies them with `set_cell`, then the
generation counter is incremented. -/
def Grid.next_generation (g : Grid) : Grid :=
  let next_states : List ((Int × Int) × Bool) :=
    (rowMajorCoords g.width.toNat g.height.toNat).map (fun p =>
      (p, (g.get_cell p.1 p.2).will_be_alive (g.count_live_neighbors p.1 p.2)))
  let g' := next_states.foldl (fun acc q => acc.set_cell q.1.1 q.1.2 q.2) g
  { g' with generation := g'.generation + 1 }

/-- Source `Grid.clear`: sets every cell dead via `set_cell`, resets the
generation counter to 0. -/
def Grid.clear (g : Grid) : Grid :=
  let g' := (rowMajorCoords g.width.toNat g.height.toNat).foldl
    (fun acc p => acc.set_cell p.1 p.2 false) g
  { g' with generation := 0 }

/-- Source `Grid.from_pattern`: dimensions default to the pattern's plus 10,
the pattern is centered with floor division, and exactly the true pattern
cells are written with `set_cell` onto a freshly constructed grid. -/
def Grid.from_pattern (pattern : List (List Bool))
    (width height : Option Int) : Grid :=
  let pattern_height : Int := (pattern.length : Int)
  let pattern_width : Int :=
    if 0 < pattern.length then ((pattern.headD []).length : Int) else 0
  let width := width.getD (pattern_width + 10)
  let height := height.getD (pattern_height + 10)
  let g := Grid.init width height
  let start_x := (width - pattern_width) / 2
  let start_y := (height - pattern_height) / 2
  pattern.enum.foldl (fun acc row =>
    row.2.enum.foldl (fun acc c =>
      if c.2 then acc.set_cell (start_x + (c.1 : Int)) (start_y + (row.1 : Int)) true
      else acc) acc) g

/-- Source `Grid.get_live_cells`: the coordinates of the live cells in
row-major order (the generator, materialized as the list it yields). -/
def Grid.get_live_cells (g : Grid) : List (Int × Int) :=
  (rowMajorCoords g.width.toNat g.height.toNat).filter
    (fun p => (g.get_cell p.1 p.2).is_alive)

/-- Source `Patterns.blinker`: 3x3, middle row alive. -/
def Patterns.blinker : List (List Bool) :=
  [[false, false, false], [true, true, true], [false, false, false]]

/-- Well-formedness of a grid value: positive dimensions and storage of the
shape `Grid.__init__` creates — exactly the grids on which the Python
source never raises. -/
def Grid.Wf (g : Grid) : Prop :=
  0 < g.width ∧ 0 < g.height ∧ g._grid.length = g.height.toNat ∧
    ∀ row ∈ g._grid, row.length = g.width.toNat

instance (g : Grid) : Decidable g.Wf := by
  unfold Grid.Wf; infer_instance

/-- The 8 neighbor offsets `{-1,0,1}^2` minus `(0,0)`, in the source's
iteration order (`dy` outer, `dx` inner): the reference against which
`count_live_neighbors` is checked. -/
def neighborOffsets : List (Int × Int) :=
  [(-1, -1), (0, -1), (1, -1), (-1, 0), (1, 0), (-1, 1), (0, 1), (1, 1)]

/-- Iterated advance: `g.advance_iter k` is `k` successive calls of
`next_generation` starting from `g`. -/
def Grid.advance_iter (g : Grid) : Nat → Grid
  | 0 => g
  | k + 1 => g.next_generation.advance_iter k

/-! ### List helper lemmas -/

theorem list_getD_set {α : Type} (a d : α) :
    ∀ (l : List α) (i j : Nat), i < l.length →
      (l.set i a).getD j d = if j = i then a else l.getD j d := by
  intro l
  induction l with
  | nil => intro i j h; simp at h
  | cons hd tl ih =>
    intro i j h
    cases i with
    | zero => cases j <;> simp
    | succ i =>
      cases j with
      | zero => simp
      | succ j =>
        simp only [List.set_cons_succ, List.getD_cons_succ]
        rw [ih i j (by simpa using h)]
        by_cases hji : j = i
        · simp [hji]
        · rw [if_neg hji, if_neg (by omega)]

theorem list_getD_replicate {α : Type} (a d : α) :
    ∀ (n i : Nat), (List.replicate n a).getD i d = if i < n then a else d := by
  intro n
  induction n with
  | zero => intro i; simp
  | succ n ih =>
    intro i
    cases i with
    | zero => simp [List.replicate_succ]
    | succ i =>
      simp only [List.replicate_succ, List.getD_cons_succ, ih]
      by_cases hin : i < n
      · rw [if_pos hin, if_pos (by omega)]
      · rw [if_neg hin, if_neg (by omega)]

theorem list_foldl_filter {α β : Type} (p : α → Bool) (f : β → α → β) :
    ∀ (l : List α) (b : β),
      (l.filter p).foldl f b =
        l.foldl (fun acc a => if p a then f acc a else acc) b := by
  intro l
  induction l with
  | nil => intro b; rfl
  | cons hd tl ih =>
    intro b
    cases h : p hd <;> simp [List.filter_cons, h, ih]

/-- Membership in the row-major coordinate enumeration is exactly being in
range. -/
theorem mem_rowMajorCoords (w h : Nat) (p : Int × Int) :
    p ∈ rowMajorCoords w h ↔
      0 ≤ p.1 ∧ p.1 < (w : Int) ∧ 0 ≤ p.2 ∧ p.2 < (h : Int) := by
  unfold rowMajorCoords
  constructor
  · intro hp
    obtain ⟨y, hy, hp2⟩ := List.mem_flatMap.mp hp
    obtain ⟨x, hx, rfl⟩ := List.mem_map.mp hp2
    rw [List.mem_range] at hy hx
    refine ⟨?_, ?_, ?_, ?_⟩ <;> dsimp only <;> omega
  · rintro ⟨h1, h2, h3, h4⟩
    refine List.mem_flatMap.mpr ⟨p.2.toNat, List.mem_range.mpr (by omega), ?_⟩
    refine List.mem_map.mpr ⟨p.1.toNat, ⟨List.mem_range.mpr (by omega), ?_⟩⟩
    rw [Int.toNat_of_nonneg h1, Int.toNat_of_nonneg h3]

/-! ### Basic grid lemmas -/

theorem norm_toNat_lt {w : Int} (hw : 0 < w) (x : Int) : (x % w).toNat < w.toNat := by
  have h1 := Int.emod_nonneg x (by omega : w ≠ 0)
  have h2 := Int.emod_lt_of_pos x hw
  omega

@[simp] theorem Grid.width_set_cell (g : Grid) (x y : Int) (b : Bool) :
    (g.set_cell x y b).width = g.width := rfl

@[simp] theorem Grid.height_set_cell (g : Grid) (x y : Int) (b : Bool) :
    (g.set_cell x y b).height = g.height := rfl

@[simp] theorem Grid.generation_set_cell (g : Grid) (x y : Int) (b : Bool) :
    (g.set_cell x y b).generation = g.generation := rfl

@[simp] theorem Grid.grid_length_set_cell (g : Grid) (x y : Int) (b : Bool) :
    (g.set_cell x y b)._grid.length = g._grid.length := by
  simp [Grid.set_cell]

/-- Rows of a well-formed grid, addressed by an in-range index, have length
`width.toNat`. -/
theorem Grid.row_length {g : Grid} (hwf : g.Wf) {i : Nat} (hi : i < g._grid.length) :
    (g._grid.getD i []).length = g.width.toNat := by
  obtain ⟨hw, hh, hlen, hrows⟩ := hwf
  rw [List.getD_eq_getElem _ _ hi]
  exact hrows _ (List.getElem_mem hi)

theorem Grid.wf_set_cell {g : Grid} (hwf : g.Wf) (x y : Int) (b : Bool) :
    (g.set_cell x y b).Wf := by
  obtain ⟨hw, hh, hlen, hrows⟩ := hwf
  have hilen : (y % g.height).toNat < g._grid.length := by
    have := norm_toNat_lt hh y
    omega
  refine ⟨hw, hh, by simpa [Grid.set_cell] using hlen, ?_⟩
  intro row hrow
  simp only [Grid.set_cell] at hrow
  rcases List.mem_or_eq_of_mem_set hrow with h | rfl
  · exact hrows _ h
  · rw [List.length_set]
    exact Grid.row_length ⟨hw, hh, hlen, hrows⟩ hilen

/-- Reading any coordinate of a freshly constructed grid gives a dead cell. -/
theorem Grid.get_cell_init (w h x y : Int) :
    (Grid.init w h).get_cell x y = Cell.init := by
  show (((List.replicate h.toNat (List.replicate w.toNat Cell.init)).getD
      (y % h).toNat []).getD (x % w).toNat Cell.init) = Cell.init
  rw [list_getD_replicate]
  by_cases h1 : (y % h).toNat < h.toNat
  · rw [if_pos h1, list_getD_replicate]
    by_cases h2 : (x % w).toNat < w.toNat
    · rw [if_pos h2]
    · rw [if_neg h2]
  · rw [if_neg h1]
    rfl

/-- The storage written by `set_cell`, spelled out. -/
theorem Grid.grid_set_cell (g : Grid) (x y : Int) (b : Bool) :
    (g.set_cell x y b)._grid = g._grid.set (y % g.height).toNat
      ((g._grid.getD (y % g.height).toNat []).set (x % g.width).toNat ⟨b⟩) := rfl

/-- Toggling is `set_cell` with the negated current state, and returns
that new state. -/
theorem Grid.toggle_cell_eq (g : Grid) (x y : Int) :
    g.toggle_cell x y =
      (g.set_cell x y (!(g.get_cell x y).is_alive), !(g.get_cell x y).is_alive) := rfl

/-- Read-after-write: `set_cell` rewrites exactly the cell whose normalized
coordinates coincide with the written one. -/
theorem Grid.get_set {g : Grid} (hwf : g.Wf) (x y x' y' : Int) (b : Bool) :
    (g.set_cell x y b).get_cell x' y' =
      if x' % g.width = x % g.width ∧ y' % g.height = y % g.height then (⟨b⟩ : Cell)
      else g.get_cell x' y' := by
  have hw := hwf.1
  have hh := hwf.2.1
  have hlen := hwf.2.2.1
  have hxm := Int.emod_nonneg x (by omega : g.width ≠ 0)
  have hxl := Int.emod_lt_of_pos x hw
  have hym := Int.emod_nonneg y (by omega : g.height ≠ 0)
  have hyl := Int.emod_lt_of_pos y hh
  have hxm' := Int.emod_nonneg x' (by omega : g.width ≠ 0)
  have hxl' := Int.emod_lt_of_pos x' hw
  have hym' := Int.emod_nonneg y' (by omega : g.height ≠ 0)
  have hyl' := Int.emod_lt_of_pos y' hh
  have hiy : (y % g.height).toNat < g._grid.length := by omega
  have hrow : (g._grid.getD (y % g.height).toNat []).length = g.width.toNat :=
    Grid.row_length hwf hiy
  simp only [Grid.get_cell, Grid.grid_set_cell, Grid.width_set_cell,
    Grid.height_set_cell]
  rw [list_getD_set _ _ _ _ _ hiy]
  by_cases hy2 : (y' % g.height).toNat = (y % g.height).toNat
  · rw [if_pos hy2]
    rw [list_getD_set _ _ _ _ _ (by omega : (x % g.width).toNat <
      (g._grid.getD (y % g.height).toNat []).length)]
    by_cases hx2 : (x' % g.width).toNat = (x % g.width).toNat
    · rw [if_pos hx2, if_pos ⟨by omega, by omega⟩]
    · rw [if_neg hx2, if_neg (by omega : ¬(x' % g.width = x % g.width ∧
        y' % g.height = y % g.height)), ← hy2]
  · rw [if_neg hy2, if_neg (by omega : ¬(x' % g.width = x % g.width ∧
      y' % g.height = y % g.height))]

/-- Folding writes over a grid leaves the dimensions and the generation
counter untouched. -/
theorem fold_set_dims (v : (Int × Int) → Bool) :
    ∀ (l : List (Int × Int)) (g : Grid),
      (l.foldl (fun acc p => acc.set_cell p.1 p.2 (v p)) g).width = g.width ∧
      (l.foldl (fun acc p => acc.set_cell p.1 p.2 (v p)) g).height = g.height ∧
      (l.foldl (fun acc p => acc.set_cell p.1 p.2 (v p)) g).generation = g.generation := by
  intro l
  induction l with
  | nil => intro g; exact ⟨rfl, rfl, rfl⟩
  | cons hd tl ih =>
    intro g
    simp only [List.foldl_cons]
    exact ⟨(ih _).1, (ih _).2.1, (ih _).2.2⟩

theorem fold_set_wf (v : (Int × Int) → Bool) :
    ∀ (l : List (Int × Int)) (g : Grid), g.Wf →
      (l.foldl (fun acc p => acc.set_cell p.1 p.2 (v p)) g).Wf := by
  intro l
  induction l with
  | nil => intro g hwf; exact hwf
  | cons hd tl ih =>
    intro g hwf
    simp only [List.foldl_cons]
    exact ih _ (Grid.wf_set_cell hwf hd.1 hd.2 (v hd))

/-- The value of a cell after folding the writes `p ↦ v p` over a list of
in-range coordinates: coordinates in the list hold their written value, all
others are untouched. -/
theorem fold_set_get (v : (Int × Int) → Bool) :
    ∀ (l : List (Int × Int)) (g : Grid), g.Wf →
      (∀ p ∈ l, 0 ≤ p.1 ∧ p.1 < g.width ∧ 0 ≤ p.2 ∧ p.2 < g.height) →
      ∀ x y : Int, 0 ≤ x → x < g.width → 0 ≤ y → y < g.height →
        (l.foldl (fun acc p => acc.set_cell p.1 p.2 (v p)) g).get_cell x y =
          if (x, y) ∈ l then (⟨v (x, y)⟩ : Cell) else g.get_cell x y := by
  intro l
  induction l with
  | nil =>
    intro g _ _ x y _ _ _ _
    simp
  | cons hd tl ih =>
    intro g hwf hmem x y hx0 hxw hy0 hyh
    simp only [List.foldl_cons]
    have hwf' := Grid.wf_set_cell hwf hd.1 hd.2 (v hd)
    have hmem' : ∀ p ∈ tl, 0 ≤ p.1 ∧ p.1 < (g.set_cell hd.1 hd.2 (v hd)).width ∧
        0 ≤ p.2 ∧ p.2 < (g.set_cell hd.1 hd.2 (v hd)).height := by
      intro p hp
      exact hmem p (List.mem_cons_of_mem _ hp)
    rw [ih _ hwf' hmem' x y hx0 hxw hy0 hyh]
    by_cases hin : (x, y) ∈ tl
    · rw [if_pos hin, if_pos (List.mem_cons_of_mem _ hin)]
    · rw [if_neg hin]
      rw [Grid.get_set hwf]
      have hhd := hmem hd (List.mem_cons_self _ _)
      rw [Int.emod_eq_of_lt hx0 hxw, Int.emod_eq_of_lt hy0 hyh,
        Int.emod_eq_of_lt hhd.1 hhd.2.1, Int.emod_eq_of_lt hhd.2.2.1 hhd.2.2.2]
      by_cases heq : x = hd.1 ∧ y = hd.2
      · have hxy : (x, y) = hd := Prod.ext heq.1 heq.2
        rw [if_pos heq, hxy, if_pos (List.mem_cons_self _ _)]
      · have hnot : (x, y) ∉ hd :: tl := by
          intro hmem2
          rcases List.mem_cons.mp hmem2 with h | h
          · exact heq ⟨congrArg Prod.fst h, congrArg Prod.snd h⟩
          · exact hin h
        rw [if_neg heq, if_neg hnot]

/-! ### Normalization: all cell accessors address the wrapped coordinate -/

theorem Grid.get_cell_norm (g : Grid) (x y : Int) :
    g.get_cell x y = g.get_cell (x % g.width) (y % g.height) := by
  simp only [Grid.get_cell, Int.emod_emod_of_dvd _ dvd_rfl]

theorem Grid.set_cell_norm (g : Grid) (x y : Int) (b : Bool) :
    g.set_cell x y b = g.set_cell (x % g.width) (y % g.height) b := by
  simp only [Grid.set_cell, Int.emod_emod_of_dvd _ dvd_rfl]

theorem Grid.toggle_cell_norm (g : Grid) (x y : Int) :
    g.toggle_cell x y = g.toggle_cell (x % g.width) (y % g.height) := by
  simp only [Grid.toggle_cell, Int.emod_emod_of_dvd _ dvd_rfl]

/-- In-range cell reads are plain storage lookups. -/
theorem Grid.get_cell_getD {g : Grid} (hwf : g.Wf) {n m : Nat}
    (hn : n < g.height.toNat) (hm : m < g.width.toNat) :
    g.get_cell (m : Int) (n : Int) = (g._grid.getD n []).getD m Cell.init := by
  have hw := hwf.1
  have hh := hwf.2.1
  simp only [Grid.get_cell]
  rw [Int.emod_eq_of_lt (by omega) (by omega : (m : Int) < g.width),
    Int.emod_eq_of_lt (by omega) (by omega : (n : Int) < g.height),
    Int.toNat_natCast, Int.toNat_natCast]

/-! ### `next_generation` as a fold of writes -/

/-- The per-coordinate next-state value of the first pass of
`next_generation`. -/
def nextCellVal (g : Grid) (p : Int × Int) : Bool :=
  (g.get_cell p.1 p.2).will_be_alive (g.count_live_neighbors p.1 p.2)

theorem Grid.next_generation_fold (g : Grid) :
    g.next_generation =
      { (rowMajorCoords g.width.toNat g.height.toNat).foldl
          (fun acc p => acc.set_cell p.1 p.2 (nextCellVal g p)) g with
        generation :=
          ((rowMajorCoords g.width.toNat g.height.toNat).foldl
            (fun acc p => acc.set_cell p.1 p.2 (nextCellVal g p)) g).generation + 1 } := by
  show ({ ((rowMajorCoords g.width.toNat g.height.toNat).map
        (fun p => (p, nextCellVal g p))).foldl
        (fun acc q => acc.set_cell q.1.1 q.1.2 q.2) g with
      generation :=
        (((rowMajorCoords g.width.toNat g.height.toNat).map
          (fun p => (p, nextCellVal g p))).foldl
          (fun acc q => acc.set_cell q.1.1 q.1.2 q.2) g).generation + 1 } : Grid) = _
  rw [List.foldl_map]

@[simp] theorem Grid.width_next_generation (g : Grid) :
    g.next_generation.width = g.width := by
  rw [Grid.next_generation_fold]
  exact (fold_set_dims (nextCellVal g) _ _).1

@[simp] theorem Grid.height_next_generation (g : Grid) :
    g.next_generation.height = g.height := by
  rw [Grid.next_generation_fold]
  exact (fold_set_dims (nextCellVal g) _ _).2.1

@[simp] theorem Grid.generation_next_generation (g : Grid) :
    g.next_generation.generation = g.generation + 1 := by
  rw [Grid.next_generation_fold]
  show (_ : Grid).generation + 1 = g.generation + 1
  rw [(fold_set_dims (nextCellVal g) _ _).2.2]

theorem Grid.wf_next_generation {g : Grid} (hwf : g.Wf) :
    g.next_generation.Wf := by
  rw [Grid.next_generation_fold]
  have h := fold_set_wf (nextCellVal g)
    (rowMajorCoords g.width.toNat g.height.toNat) g hwf
  exact ⟨h.1, h.2.1, h.2.2.1, h.2.2.2⟩

/-- Every in-range coordinate of a well-formed grid is in the row-major
enumeration of that grid's coordinates. -/
theorem mem_coords_of_range {g : Grid} (hwf : g.Wf) {x y : Int}
    (hx0 : 0 ≤ x) (hxw : x < g.width) (hy0 : 0 ≤ y) (hyh : y < g.height) :
    (x, y) ∈ rowMajorCoords g.width.toNat g.height.toNat := by
  have hw := hwf.1
  have hh := hwf.2.1
  rw [mem_rowMajorCoords]
  refine ⟨by omega, by omega, by omega, by omega⟩

theorem coords_in_range {g : Grid} (hwf : g.Wf) :
    ∀ p ∈ rowMajorCoords g.width.toNat g.height.toNat,
      0 ≤ p.1 ∧ p.1 < g.width ∧ 0 ≤ p.2 ∧ p.2 < g.height := by
  have hw := hwf.1
  have hh := hwf.2.1
  intro p hp
  rw [mem_rowMajorCoords] at hp
  refine ⟨by omega, by omega, by omega, by omega⟩

/-- The heart of the advance algorithm: the post-advance state of every
in-range cell is the life rule applied to that cell's pre-advance state and
pre-advance neighbor count. -/
theorem Grid.get_cell_next_generation {g : Grid} (hwf : g.Wf) {x y : Int}
    (hx0 : 0 ≤ x) (hxw : x < g.width) (hy0 : 0 ≤ y) (hyh : y < g.height) :
    g.next_generation.get_cell x y =
      ⟨(g.get_cell x y).will_be_alive (g.count_live_neighbors x y)⟩ := by
  rw [show g.next_generation.get_cell x y =
      ((rowMajorCoords g.width.toNat g.height.toNat).foldl
        (fun acc p => acc.set_cell p.1 p.2 (nextCellVal g p)) g).get_cell x y from by
    rw [Grid.next_generation_fold]; rfl]
  rw [fold_set_get (nextCellVal g) _ _ hwf (coords_in_range hwf) x y hx0 hxw hy0 hyh,
    if_pos (mem_coords_of_range hwf hx0 hxw hy0 hyh)]
  rfl

/-! ### `clear` as a fold of writes -/

theorem Grid.clear_fold (g : Grid) :
    g.clear =
      { (rowMajorCoords g.width.toNat g.height.toNat).foldl
          (fun acc p => acc.set_cell p.1 p.2 ((fun _ => false) p)) g with
        generation := 0 } := rfl

@[simp] theorem Grid.width_clear (g : Grid) : g.clear.width = g.width := by
  rw [Grid.clear_fold]
  exact (fold_set_dims (fun _ => false) _ _).1

@[simp] theorem Grid.height_clear (g : Grid) : g.clear.height = g.height := by
  rw [Grid.clear_fold]
  exact (fold_set_dims (fun _ => false) _ _).2.1

@[simp] theorem Grid.generation_clear (g : Grid) : g.clear.generation = 0 := rfl

theorem Grid.wf_clear {g : Grid} (hwf : g.Wf) : g.clear.Wf := by
  rw [Grid.clear_fold]
  have h := fold_set_wf (fun _ => false)
    (rowMajorCoords g.width.toNat g.height.toNat) g hwf
  exact ⟨h.1, h.2.1, h.2.2.1, h.2.2.2⟩

theorem Grid.get_cell_clear_range {g : Grid} (hwf : g.Wf) {x y : Int}
    (hx0 : 0 ≤ x) (hxw : x < g.width) (hy0 : 0 ≤ y) (hyh : y < g.height) :
    g.clear.get_cell x y = (⟨false⟩ : Cell) := by
  rw [show g.clear.get_cell x y =
      ((rowMajorCoords g.width.toNat g.height.toNat).foldl
        (fun acc p => acc.set_cell p.1 p.2 ((fun _ => false) p)) g).get_cell x y from by
    rw [Grid.clear_fold]; rfl]
  rw [fold_set_get (fun _ => false) _ _ hwf (coords_in_range hwf) x y hx0 hxw hy0 hyh,
    if_pos (mem_coords_of_range hwf hx0 hxw hy0 hyh)]

/-- All cells of a cleared grid are dead, at arbitrary integer coordinates. -/
theorem Grid.get_cell_clear {g : Grid} (hwf : g.Wf) (x y : Int) :
    g.clear.get_cell x y = (⟨false⟩ : Cell) := by
  have hw := hwf.1
  have hh := hwf.2.1
  rw [Grid.get_cell_norm, Grid.width_clear, Grid.height_clear]
  exact Grid.get_cell_clear_range hwf
    (Int.emod_nonneg x (by omega)) (Int.emod_lt_of_pos x hw)
    (Int.emod_nonneg y (by omega)) (Int.emod_lt_of_pos y hh)

/-- A cleared well-formed grid is exactly a freshly constructed grid of the
same dimensions. -/
theorem Grid.clear_eq_init {g : Grid} (hwf : g.Wf) :
    g.clear = Grid.init g.width g.height := by
  have hwfc : g.clear.Wf := Grid.wf_clear hwf
  have hw := hwf.1
  have hh := hwf.2.1
  apply Grid.ext
  · rw [Grid.width_clear]; rfl
  · rw [Grid.height_clear]; rfl
  · show g.clear._grid = List.replicate g.height.toNat (List.replicate g.width.toNat Cell.init)
    apply List.ext_getElem
    · rw [hwfc.2.2.1, Grid.height_clear, List.length_replicate]
    · intro n h1 h2
      apply List.ext_getElem
      · have e1 : g.clear._grid[n] ∈ g.clear._grid := List.getElem_mem h1
        rw [hwfc.2.2.2 _ e1, Grid.width_clear, List.getElem_replicate,
          List.length_replicate]
      · intro m hm1 hm2
        have hn : n < g.clear.height.toNat := by
          have := hwfc.2.2.1
          omega
        have hmw : m < g.clear.width.toNat := by
          have e1 : g.clear._grid[n] ∈ g.clear._grid := List.getElem_mem h1
          have := hwfc.2.2.2 _ e1
          omega
        have lhs : g.clear._grid[n][m] = (⟨false⟩ : Cell) := by
          have hgd : (g.clear._grid.getD n []).getD m Cell.init =
              g.clear._grid[n][m] := by
            rw [List.getD_eq_getElem _ _ h1]
            rw [List.getD_eq_getElem _ _ hm1]
          rw [← hgd, ← Grid.get_cell_getD hwfc hn hmw, Grid.get_cell_clear hwf]
        rw [lhs]
        simp [List.getElem_replicate, Cell.init]
  · rw [Grid.generation_clear]; rfl

theorem Grid.generation_advance_iter :
    ∀ (k : Nat) (g : Grid), (g.advance_iter k).generation = g.generation + k := by
  intro k
  induction k with
  | zero => intro g; rfl
  | succ k ih =>
    intro g
    show (g.next_generation.advance_iter k).generation = _
    rw [ih, Grid.generation_next_generation]
    omega

/-! ### `from_pattern` as a fold of writes -/

theorem Grid.wf_init {w h : Int} (hw : 0 < w) (hh : 0 < h) : (Grid.init w h).Wf := by
  refine ⟨hw, hh, List.length_replicate _ _, ?_⟩
  intro row hrow
  rw [List.eq_of_mem_replicate hrow]
  exact List.length_replicate _ _

/-- Folding over a flattened list is the nested fold. -/
theorem foldl_flatMap {α β γ : Type} (f : α → List β) (step : γ → β → γ) :
    ∀ (l : List α) (b : γ),
      (l.flatMap f).foldl step b =
        l.foldl (fun acc a => (f a).foldl step acc) b := by
  intro l
  induction l with
  | nil => intro b; rfl
  | cons hd tl ih =>
    intro b
    rw [List.flatMap_cons, List.foldl_append, List.foldl_cons, ih]

/-- The write coordinates produced by one pattern row. -/
def rowWrites (sx sy : Int) (yi : Nat) (row : List Bool) : List (Int × Int) :=
  (row.enum.filter (fun c => c.2)).map
    (fun c => (sx + (c.1 : Int), sy + (yi : Int)))

/-- All write coordinates of a pattern placed at offset `(sx, sy)`. -/
def patternWrites (sx sy : Int) (pattern : List (List Bool)) : List (Int × Int) :=
  pattern.enum.flatMap (fun r => rowWrites sx sy r.1 r.2)

/-- The nested conditional folds of `from_pattern` are the fold of
unconditional live writes over `patternWrites`. -/
theorem from_pattern_fold (sx sy : Int) (pattern : List (List Bool)) (g : Grid) :
    pattern.enum.foldl (fun acc row =>
      row.2.enum.foldl (fun acc c =>
        if c.2 then acc.set_cell (sx + (c.1 : Int)) (sy + (row.1 : Int)) true
        else acc) acc) g =
    (patternWrites sx sy pattern).foldl
      (fun acc p => acc.set_cell p.1 p.2 ((fun _ => true) p)) g := by
  unfold patternWrites
  rw [foldl_flatMap]
  have hstep : (fun (acc : Grid) (row : Nat × List Bool) =>
      row.2.enum.foldl (fun acc c =>
        if c.2 then acc.set_cell (sx + (c.1 : Int)) (sy + (row.1 : Int)) true
        else acc) acc) =
    (fun (acc : Grid) (r : Nat × List Bool) =>
      (rowWrites sx sy r.1 r.2).foldl
        (fun acc p => acc.set_cell p.1 p.2 ((fun _ => true) p)) acc) := by
    funext acc r
    unfold rowWrites
    rw [List.foldl_map, list_foldl_filter]
  rw [hstep]

/-- Membership in an enumerated list, phrased with a default lookup. -/
theorem mem_enum_getD {α : Type} (d : α) (l : List α) (q : Nat × α) :
    q ∈ l.enum ↔ q.1 < l.length ∧ l.getD q.1 d = q.2 := by
  constructor
  · intro hq
    have h := List.mem_enum (x := q.2) (i := q.1) (by
      rw [show (q.1, q.2) = q from rfl]
      exact hq)
    refine ⟨h.1, ?_⟩
    rw [List.getD_eq_getElem _ _ h.1, ← h.2]
  · rintro ⟨h1, h2⟩
    have hb : q.1 < l.enum.length := by rw [List.enum_length]; exact h1
    have he : l.enum[q.1] = (q.1, l[q.1]) := List.getElem_enum l q.1 hb
    have hm : (q.1, l[q.1]) ∈ l.enum := he ▸ List.getElem_mem hb
    have hq : q = (q.1, l[q.1]) := by
      refine Prod.ext rfl ?_
      show q.2 = l[q.1]
      rw [← h2, List.getD_eq_getElem _ _ h1]
    rw [hq]
    exact hm

/-- The write coordinates of a pattern are exactly the offset positions of
its true cells. -/
theorem mem_patternWrites (sx sy : Int) (pattern : List (List Bool)) (p : Int × Int) :
    p ∈ patternWrites sx sy pattern ↔
      ∃ i j : Nat, i < pattern.length ∧ j < (pattern.getD i []).length ∧
        (pattern.getD i []).getD j false = true ∧
        p = (sx + (j : Int), sy + (i : Int)) := by
  unfold patternWrites rowWrites
  rw [List.mem_flatMap]
  constructor
  · rintro ⟨r, hr, hp⟩
    rw [mem_enum_getD []] at hr
    obtain ⟨c, hc, rfl⟩ := List.mem_map.mp hp
    rw [List.mem_filter] at hc
    obtain ⟨hc1, hc2⟩ := hc
    rw [mem_enum_getD false] at hc1
    refine ⟨r.1, c.1, hr.1, ?_, ?_, rfl⟩
    · rw [hr.2]
      exact hc1.1
    · rw [hr.2, hc1.2]
      simpa using hc2
  · rintro ⟨i, j, hi, hj, hv, rfl⟩
    refine ⟨(i, pattern.getD i []), ?_, ?_⟩
    · rw [mem_enum_getD []]
      exact ⟨hi, rfl⟩
    · apply List.mem_map.mpr
      refine ⟨(j, true), ?_, rfl⟩
      rw [List.mem_filter]
      refine ⟨?_, rfl⟩
      rw [mem_enum_getD false]
      exact ⟨hj, hv⟩

/-! ### Claim theorems -/

/-- C1: one call to `next_generation` gives every in-range cell the state
`will_be_alive` of its pre-advance state and pre-advance live-neighbor
count — the reference snapshot-then-apply computation — and increments the
generation by exactly 1, preserving the dimensions. -/
theorem next_generation_spec (g : Grid) (hwf : g.Wf) (x y : Int)
    (hx0 : 0 ≤ x) (hxw : x < g.width) (hy0 : 0 ≤ y) (hyh : y < g.height) :
    g.next_generation.get_cell x y =
      ⟨(g.get_cell x y).will_be_alive (g.count_live_neighbors x y)⟩ ∧
    g.next_generation.generation = g.generation + 1 ∧
    g.next_generation.width = g.width ∧
    g.next_generation.height = g.height :=
  ⟨Grid.get_cell_next_generation hwf hx0 hxw hy0 hyh,
   Grid.generation_next_generation g, Grid.width_next_generation g,
   Grid.height_next_generation g⟩

/-- Witness for C1 on the blinker grid at coordinate (6, 5). -/
theorem next_generation_spec_witness :
    ((Grid.from_pattern Patterns.blinker none none).Wf ∧ (0 : Int) ≤ 6 ∧
      (6 : Int) < (Grid.from_pattern Patterns.blinker none none).width ∧
      (0 : Int) ≤ 5 ∧
      (5 : Int) < (Grid.from_pattern Patterns.blinker none none).height) ∧
    ((Grid.from_pattern Patterns.blinker none none).next_generation.get_cell 6 5 =
      ⟨((Grid.from_pattern Patterns.blinker none none).get_cell 6 5).will_be_alive
        ((Grid.from_pattern Patterns.blinker none none).count_live_neighbors 6 5)⟩ ∧
    (Grid.from_pattern Patterns.blinker none none).next_generation.generation =
      (Grid.from_pattern Patterns.blinker none none).generation + 1 ∧
    (Grid.from_pattern Patterns.blinker none none).next_generation.width =
      (Grid.from_pattern Patterns.blinker none none).width ∧
    (Grid.from_pattern Patterns.blinker none none).next_generation.height =
      (Grid.from_pattern Patterns.blinker none none).height) :=
  ⟨⟨by decide, by decide, by decide, by decide, by decide⟩,
   next_generation_spec _ (by decide) 6 5 (by decide) (by decide) (by decide)
     (by decide)⟩

/-- C2: for every neighbor count `n` in `[0,8]`, a live cell's next state is
alive iff `n = 2` or `n = 3`, and a dead cell's next state is alive iff
`n = 3`. -/
theorem will_be_alive_rule_spec (n : Nat) (hn : n ≤ 8) :
    ((Cell.mk true).will_be_alive n = true ↔ (n = 2 ∨ n = 3)) ∧
    ((Cell.mk false).will_be_alive n = true ↔ n = 3) := by
  constructor
  · simp only [Cell.will_be_alive, if_pos]
    rw [decide_eq_true_iff]
    omega
  · simp [Cell.will_be_alive]

/-- Witness for C2 at `n = 3`. -/
theorem will_be_alive_rule_spec_witness :
    3 ≤ 8 ∧
    (((Cell.mk true).will_be_alive 3 = true ↔ (3 = 2 ∨ 3 = 3)) ∧
     ((Cell.mk false).will_be_alive 3 = true ↔ 3 = 3)) :=
  ⟨by decide, will_be_alive_rule_spec 3 (by decide)⟩

/-- C3: `count_live_neighbors` equals the number of live cells among the 8
toroidally wrapped neighbor positions (offsets `{-1,0,1}^2` without `(0,0)`,
which is not in the examined offset list), hence lies in [0, 8]. -/
theorem count_live_neighbors_spec (g : Grid) (_hw : 0 < g.width)
    (_hh : 0 < g.height) (x y : Int) :
    g.count_live_neighbors x y =
      neighborOffsets.countP (fun d => (g.get_cell (x + d.1) (y + d.2)).is_alive) ∧
    g.count_live_neighbors x y ≤ 8 ∧
    ((0 : Int), (0 : Int)) ∉ neighborOffsets := by
  have heq : g.count_live_neighbors x y =
      neighborOffsets.countP (fun d => (g.get_cell (x + d.1) (y + d.2)).is_alive) := by
    simp only [Grid.count_live_neighbors, neighborOffsets, Grid.get_cell,
      List.foldl_cons, List.foldl_nil, List.countP_cons, List.countP_nil]
    norm_num
    generalize ((g._grid[((y + -1) % g.height).toNat]?.getD
      [])[((x + -1) % g.width).toNat]?.getD Cell.init).is_alive = b1
    generalize ((g._grid[((y + -1) % g.height).toNat]?.getD
      [])[(x % g.width).toNat]?.getD Cell.init).is_alive = b2
    generalize ((g._grid[((y + -1) % g.height).toNat]?.getD
      [])[((x + 1) % g.width).toNat]?.getD Cell.init).is_alive = b3
    generalize ((g._grid[(y % g.height).toNat]?.getD
      [])[((x + -1) % g.width).toNat]?.getD Cell.init).is_alive = b4
    generalize ((g._grid[(y % g.height).toNat]?.getD
      [])[((x + 1) % g.width).toNat]?.getD Cell.init).is_alive = b5
    generalize ((g._grid[((y + 1) % g.height).toNat]?.getD
      [])[((x + -1) % g.width).toNat]?.getD Cell.init).is_alive = b6
    generalize ((g._grid[((y + 1) % g.height).toNat]?.getD
      [])[(x % g.width).toNat]?.getD Cell.init).is_alive = b7
    generalize ((g._grid[((y + 1) % g.height).toNat]?.getD
      [])[((x + 1) % g.width).toNat]?.getD Cell.init).is_alive = b8
    revert b1 b2 b3 b4 b5 b6 b7 b8
    decide
  refine ⟨heq, ?_, by decide⟩
  rw [heq]
  exact List.countP_le_length _

/-- Witness for C3 on a 3 x 3 grid at (1, 1). -/
theorem count_live_neighbors_spec_witness :
    (0 < (Grid.init 3 3).width ∧ 0 < (Grid.init 3 3).height) ∧
    ((Grid.init 3 3).count_live_neighbors 1 1 =
      neighborOffsets.countP
        (fun d => ((Grid.init 3 3).get_cell (1 + d.1) (1 + d.2)).is_alive) ∧
    (Grid.init 3 3).count_live_neighbors 1 1 ≤ 8 ∧
    ((0 : Int), (0 : Int)) ∉ neighborOffsets) :=
  ⟨⟨by decide, by decide⟩,
   count_live_neighbors_spec (Grid.init 3 3) (by decide) (by decide) 1 1⟩

/-- C4 counterexample: `Grid.init 0 5` is a successful construction — no
validation happens and no failure is reported — yet its width is 0, not
positive, contradicting the claim that non-positive dimensions are rejected
at construction time. -/
theorem init_no_validation_cex :
    (Grid.init 0 5).width = 0 ∧ (Grid.init 0 5).height = 5 ∧
    (Grid.init 0 5).generation = 0 ∧
    (Grid.init 0 5)._grid = List.replicate 5 [] ∧
    ¬ 0 < (Grid.init 0 5).width := by decide

/-- C4 amended: construction never fails and performs no validation of the
dimensions; every constructed grid has generation 0 and only dead cells,
and when both dimensions are positive it is well-formed with exactly the
requested dimensions. -/
theorem init_amended (w h : Int) :
    (Grid.init w h).width = w ∧ (Grid.init w h).height = h ∧
    (Grid.init w h).generation = 0 ∧
    (∀ row ∈ (Grid.init w h)._grid, ∀ c ∈ row, c.is_alive = false) ∧
    (0 < w → 0 < h → (Grid.init w h).Wf) := by
  refine ⟨rfl, rfl, rfl, ?_, fun hw hh => Grid.wf_init hw hh⟩
  intro row hrow c hc
  rw [List.eq_of_mem_replicate hrow] at hc
  rw [List.eq_of_mem_replicate hc]
  rfl

/-- Witness for the amended C4 at dimensions 3 x 2. -/
theorem init_amended_witness :
    (Grid.init 3 2).width = 3 ∧ (Grid.init 3 2).height = 2 ∧
    (Grid.init 3 2).generation = 0 ∧
    (∀ row ∈ (Grid.init 3 2)._grid, ∀ c ∈ row, c.is_alive = false) ∧
    ((0 : Int) < 3 → (0 : Int) < 2 → (Grid.init 3 2).Wf) :=
  init_amended 3 2

/-- C5: `get_cell`, `set_cell` and `toggle_cell` accept arbitrary integers,
address the cell at the modulo-wrapped coordinate, never go out of bounds,
and in particular `get_cell width 0 = get_cell 0 0` and
`get_cell (-1) 0 = get_cell (width-1) 0`. -/
theorem coordinate_wraparound_spec (g : Grid) (hwf : g.Wf) (x y : Int) (b : Bool) :
    g.get_cell x y = g.get_cell (x % g.width) (y % g.height) ∧
    g.set_cell x y b = g.set_cell (x % g.width) (y % g.height) b ∧
    g.toggle_cell x y = g.toggle_cell (x % g.width) (y % g.height) ∧
    (y % g.height).toNat < g._grid.length ∧
    (x % g.width).toNat < (g._grid.getD (y % g.height).toNat []).length ∧
    g.get_cell g.width 0 = g.get_cell 0 0 ∧
    g.get_cell (-1) 0 = g.get_cell (g.width - 1) 0 := by
  have hw := hwf.1
  have hh := hwf.2.1
  have hlen := hwf.2.2.1
  have hiy : (y % g.height).toNat < g._grid.length := by
    have := norm_toNat_lt hh y
    omega
  refine ⟨Grid.get_cell_norm g x y, Grid.set_cell_norm g x y b,
    Grid.toggle_cell_norm g x y, hiy, ?_, ?_, ?_⟩
  · rw [Grid.row_length hwf hiy]
    exact norm_toNat_lt hw x
  · rw [Grid.get_cell_norm g g.width 0, Int.emod_self, Int.zero_emod]
  · rw [Grid.get_cell_norm g (-1) 0, Int.zero_emod]
    have h2 : (-1 + g.width * 1) % g.width = (-1 : Int) % g.width :=
      Int.add_mul_emod_self_left (-1) g.width 1
    have h3 : (-1 + g.width * 1 : Int) = g.width - 1 := by ring
    rw [show (-1 : Int) % g.width = g.width - 1 from by
      rw [← h2, h3, Int.emod_eq_of_lt (by omega) (by omega)]]

/-- Witness for C5 on a 3 x 2 grid at (x, y) = (5, -4). -/
theorem coordinate_wraparound_spec_witness :
    (Grid.init 3 2).Wf ∧
    ((Grid.init 3 2).get_cell 5 (-4) =
        (Grid.init 3 2).get_cell (5 % (Grid.init 3 2).width)
          ((-4) % (Grid.init 3 2).height) ∧
      (Grid.init 3 2).set_cell 5 (-4) true =
        (Grid.init 3 2).set_cell (5 % (Grid.init 3 2).width)
          ((-4) % (Grid.init 3 2).height) true ∧
      (Grid.init 3 2).toggle_cell 5 (-4) =
        (Grid.init 3 2).toggle_cell (5 % (Grid.init 3 2).width)
          ((-4) % (Grid.init 3 2).height) ∧
      ((-4 : Int) % (Grid.init 3 2).height).toNat < (Grid.init 3 2)._grid.length ∧
      ((5 : Int) % (Grid.init 3 2).width).toNat <
        ((Grid.init 3 2)._grid.getD
          ((-4 : Int) % (Grid.init 3 2).height).toNat []).length ∧
      (Grid.init 3 2).get_cell (Grid.init 3 2).width 0 = (Grid.init 3 2).get_cell 0 0 ∧
      (Grid.init 3 2).get_cell (-1) 0 =
        (Grid.init 3 2).get_cell ((Grid.init 3 2).width - 1) 0) :=
  ⟨by decide, coordinate_wraparound_spec (Grid.init 3 2) (by decide) 5 (-4) true⟩

/-- C6: the generation counter starts at 0, counts advances exactly, is
reset (with all cells dead) by `clear`, never decreases under advance, and
`clear` is idempotent. -/
theorem generation_counter_spec (g : Grid) (hwf : g.Wf) (k : Nat) (x y : Int) :
    (∀ w h : Int, (Grid.init w h).generation = 0) ∧
    ((Grid.init g.width g.height).advance_iter k).generation = k ∧
    (g.clear.advance_iter k).generation = k ∧
    g.clear.generation = 0 ∧
    (g.clear.get_cell x y).is_alive = false ∧
    g.generation ≤ g.next_generation.generation ∧
    g.clear.clear = g.clear := by
  refine ⟨fun w h => rfl, ?_, ?_, rfl, ?_, ?_, ?_⟩
  · rw [Grid.generation_advance_iter]
    show 0 + k = k
    omega
  · rw [Grid.generation_advance_iter, Grid.generation_clear]
    omega
  · rw [Grid.get_cell_clear hwf]
  · rw [Grid.generation_next_generation]
    omega
  · rw [Grid.clear_eq_init (Grid.wf_clear hwf), Grid.width_clear, Grid.height_clear,
      Grid.clear_eq_init hwf]

/-- Witness for C6 on a 2 x 2 grid with k = 2 advances at (x, y) = (3, -1). -/
theorem generation_counter_spec_witness :
    (Grid.init 2 2).Wf ∧
    ((∀ w h : Int, (Grid.init w h).generation = 0) ∧
      ((Grid.init (Grid.init 2 2).width (Grid.init 2 2).height).advance_iter 2).generation = 2 ∧
      ((Grid.init 2 2).clear.advance_iter 2).generation = 2 ∧
      (Grid.init 2 2).clear.generation = 0 ∧
      ((Grid.init 2 2).clear.get_cell 3 (-1)).is_alive = false ∧
      (Grid.init 2 2).generation ≤ (Grid.init 2 2).next_generation.generation ∧
      (Grid.init 2 2).clear.clear = (Grid.init 2 2).clear) :=
  ⟨by decide, generation_counter_spec (Grid.init 2 2) (by decide) 2 3 (-1)⟩

/-- Dimensions and generation of a grid built by `from_pattern` with
omitted dimensions, for an arbitrary pattern. -/
theorem Grid.from_pattern_dims (pattern : List (List Bool)) :
    (Grid.from_pattern pattern none none).width =
      (if 0 < pattern.length then ((pattern.headD []).length : Int) else 0) + 10 ∧
    (Grid.from_pattern pattern none none).height = (pattern.length : Int) + 10 ∧
    (Grid.from_pattern pattern none none).generation = 0 := by
  have h1 : Grid.from_pattern pattern none none =
      pattern.enum.foldl (fun acc row =>
        row.2.enum.foldl (fun acc c =>
          if c.2 then acc.set_cell
            (((if 0 < pattern.length then ((pattern.headD []).length : Int) else 0) +
                10 -
               (if 0 < pattern.length then ((pattern.headD []).length : Int) else 0)) /
                2 + (c.1 : Int))
            (((pattern.length : Int) + 10 - (pattern.length : Int)) / 2 +
              (row.1 : Int)) true
          else acc) acc)
        (Grid.init
          ((if 0 < pattern.length then ((pattern.headD []).length : Int) else 0) + 10)
          ((pattern.length : Int) + 10)) := rfl
  rw [from_pattern_fold _ _ pattern] at h1
  rw [h1]
  exact fold_set_dims (fun _ => true) _ _

/-- C7: `from_pattern` with omitted dimensions builds a grid of dimensions
(pattern_width + 10, pattern_height + 10) at generation 0, places the
pattern with top-left offset ((width - pattern_width) / 2,
(height - pattern_height) / 2) — floor division, here (5, 5) — and exactly
the true pattern cells are alive; every other cell is dead. -/
theorem from_pattern_centering_spec (pattern : List (List Bool)) (x y : Int)
    (hne : 0 < pattern.length)
    (hrect : ∀ row ∈ pattern, row.length = (pattern.headD []).length) :
    (Grid.from_pattern pattern none none).width =
      ((pattern.headD []).length : Int) + 10 ∧
    (Grid.from_pattern pattern none none).height = (pattern.length : Int) + 10 ∧
    (Grid.from_pattern pattern none none).generation = 0 ∧
    ((((pattern.headD []).length : Int) + 10 - ((pattern.headD []).length : Int)) / 2
      = (5 : Int)) ∧
    (0 ≤ x → x < ((pattern.headD []).length : Int) + 10 →
     0 ≤ y → y < (pattern.length : Int) + 10 →
      (((Grid.from_pattern pattern none none).get_cell x y).is_alive = true ↔
        (5 ≤ x ∧ x < 5 + ((pattern.headD []).length : Int) ∧
         5 ≤ y ∧ y < 5 + (pattern.length : Int) ∧
         (pattern.getD (y - 5).toNat []).getD (x - 5).toNat false = true))) := by
  have hW : (if 0 < pattern.length then ((pattern.headD []).length : Int) else 0) =
      ((pattern.headD []).length : Int) := if_pos hne
  have hoff : ∀ a : Int, (a + 10 - a) / 2 = (5 : Int) := by
    intro a
    rw [show (a + 10 - a : Int) = 10 from by ring]
    decide
  have hdims := Grid.from_pattern_dims pattern
  rw [hW] at hdims
  have h1 : Grid.from_pattern pattern none none =
      pattern.enum.foldl (fun acc row =>
        row.2.enum.foldl (fun acc c =>
          if c.2 then acc.set_cell
            (((if 0 < pattern.length then ((pattern.headD []).length : Int) else 0) +
                10 -
               (if 0 < pattern.length then ((pattern.headD []).length : Int) else 0)) /
                2 + (c.1 : Int))
            (((pattern.length : Int) + 10 - (pattern.length : Int)) / 2 +
              (row.1 : Int)) true
          else acc) acc)
        (Grid.init
          ((if 0 < pattern.length then ((pattern.headD []).length : Int) else 0) + 10)
          ((pattern.length : Int) + 10)) := rfl
  rw [hW, hoff, hoff] at h1
  rw [from_pattern_fold 5 5 pattern] at h1
  have hwf0 : (Grid.init (((pattern.headD []).length : Int) + 10)
      ((pattern.length : Int) + 10)).Wf :=
    Grid.wf_init (by omega) (by omega)
  refine ⟨hdims.1, hdims.2.1, hdims.2.2, hoff _, ?_⟩
  intro hx0 hxw hy0 hyh
  rw [h1]
  have hmemrange : ∀ p ∈ patternWrites 5 5 pattern,
      0 ≤ p.1 ∧
      p.1 < (Grid.init (((pattern.headD []).length : Int) + 10)
        ((pattern.length : Int) + 10)).width ∧
      0 ≤ p.2 ∧
      p.2 < (Grid.init (((pattern.headD []).length : Int) + 10)
        ((pattern.length : Int) + 10)).height := by
    intro p hp
    obtain ⟨i, j, hi, hj, hv, rfl⟩ := (mem_patternWrites _ _ _ _).mp hp
    have hrowlen : (pattern.getD i []).length = (pattern.headD []).length := by
      apply hrect
      rw [List.getD_eq_getElem _ _ hi]
      exact List.getElem_mem hi
    show (0 : Int) ≤ 5 + (j : Int) ∧
      5 + (j : Int) < ((pattern.headD []).length : Int) + 10 ∧
      (0 : Int) ≤ 5 + (i : Int) ∧ 5 + (i : Int) < (pattern.length : Int) + 10
    refine ⟨by omega, by omega, by omega, by omega⟩
  rw [fold_set_get (fun _ => true) _ _ hwf0 hmemrange x y hx0 hxw hy0 hyh]
  by_cases hmem : (x, y) ∈ patternWrites 5 5 pattern
  · rw [if_pos hmem]
    obtain ⟨i, j, hi, hj, hv, heq⟩ := (mem_patternWrites _ _ _ _).mp hmem
    have hx : x = 5 + (j : Int) := congrArg Prod.fst heq
    have hy : y = 5 + (i : Int) := congrArg Prod.snd heq
    have hrowlen : (pattern.getD i []).length = (pattern.headD []).length := by
      apply hrect
      rw [List.getD_eq_getElem _ _ hi]
      exact List.getElem_mem hi
    constructor
    · intro _
      have hidx1 : (y - 5).toNat = i := by omega
      have hidx2 : (x - 5).toNat = j := by omega
      exact ⟨by omega, by omega, by omega, by omega,
        by rw [hidx1, hidx2]; exact hv⟩
    · intro _
      rfl
  · rw [if_neg hmem, Grid.get_cell_init]
    constructor
    · intro hfalse
      simp [Cell.init] at hfalse
    · rintro ⟨h5x, hxpw, h5y, hyph, hv⟩
      exfalso
      apply hmem
      rw [mem_patternWrites]
      have hibound : (y - 5).toNat < pattern.length := by omega
      have hrowlen : (pattern.getD (y - 5).toNat []).length =
          (pattern.headD []).length := by
        apply hrect
        rw [List.getD_eq_getElem _ _ hibound]
        exact List.getElem_mem hibound
      refine ⟨(y - 5).toNat, (x - 5).toNat, hibound, by omega, hv, ?_⟩
      refine Prod.ext ?_ ?_ <;> dsimp only <;> omega

/-- Witness for C7 on the blinker pattern at coordinate (6, 6), the center
of the placed pattern. -/
theorem from_pattern_centering_spec_witness :
    (0 < Patterns.blinker.length ∧
      (∀ row ∈ Patterns.blinker, row.length = (Patterns.blinker.headD []).length)) ∧
    ((Grid.from_pattern Patterns.blinker none none).width =
      ((Patterns.blinker.headD []).length : Int) + 10 ∧
    (Grid.from_pattern Patterns.blinker none none).height =
      (Patterns.blinker.length : Int) + 10 ∧
    (Grid.from_pattern Patterns.blinker none none).generation = 0 ∧
    ((((Patterns.blinker.headD []).length : Int) + 10 -
        ((Patterns.blinker.headD []).length : Int)) / 2 = (5 : Int)) ∧
    (0 ≤ (6 : Int) → (6 : Int) < ((Patterns.blinker.headD []).length : Int) + 10 →
     0 ≤ (6 : Int) → (6 : Int) < (Patterns.blinker.length : Int) + 10 →
      (((Grid.from_pattern Patterns.blinker none none).get_cell 6 6).is_alive = true ↔
        (5 ≤ (6 : Int) ∧ (6 : Int) < 5 + ((Patterns.blinker.headD []).length : Int) ∧
         5 ≤ (6 : Int) ∧ (6 : Int) < 5 + (Patterns.blinker.length : Int) ∧
         (Patterns.blinker.getD ((6 : Int) - 5).toNat []).getD
           ((6 : Int) - 5).toNat false = true)))) :=
  ⟨⟨by decide, by decide⟩,
   from_pattern_centering_spec Patterns.blinker 6 6 (by decide) (by decide)⟩

/-- C8: an empty pattern is handled by the explicit `pattern_height > 0`
guard in `from_pattern`: with omitted dimensions the grid defaults to the
positive minimum 10 x 10 (all dead, generation 0) — and with omitted
dimensions no pattern whatsoever can produce a zero or negative
dimension. -/
theorem from_pattern_empty_spec :
    (∀ pattern : List (List Bool),
      10 ≤ (Grid.from_pattern pattern none none).width ∧
      10 ≤ (Grid.from_pattern pattern none none).height ∧
      0 < (Grid.from_pattern pattern none none).width ∧
      0 < (Grid.from_pattern pattern none none).height) ∧
    (Grid.from_pattern [] none none).width = 10 ∧
    (Grid.from_pattern [] none none).height = 10 ∧
    (Grid.from_pattern [] none none).generation = 0 ∧
    Grid.from_pattern [] none none = Grid.init 10 10 := by
  constructor
  · intro pattern
    have hdims := Grid.from_pattern_dims pattern
    by_cases hp : 0 < pattern.length
    · rw [if_pos hp] at hdims
      refine ⟨by omega, by omega, by omega, by omega⟩
    · rw [if_neg hp] at hdims
      refine ⟨by omega, by omega, by omega, by omega⟩
  · refine ⟨by decide, by decide, by decide, by decide⟩

/-- C9: the grid built from the blinker pattern with default dimensions
returns to exactly its original live-cell set after two advances (and that
set is the horizontal bar (5,6), (6,6), (7,6)). -/
theorem blinker_period_two_spec :
    (Grid.from_pattern Patterns.blinker none none).next_generation.next_generation.get_live_cells =
      (Grid.from_pattern Patterns.blinker none none).get_live_cells ∧
    (Grid.from_pattern Patterns.blinker none none).get_live_cells =
      [(5, 6), (6, 6), (7, 6)] := by
  exact ⟨by decide, by decide⟩

/-- C10: `set_cell` changes exactly the addressed (wrapped) cell and nothing
else; `toggle_cell` negates exactly that cell, returns the new state, and
changes nothing else; dimensions and generation are untouched by both. -/
theorem set_toggle_frame_spec (g : Grid) (hwf : g.Wf) (x y x' y' : Int) (v : Bool) :
    ((g.set_cell x y v).get_cell x' y' =
      if x' % g.width = x % g.width ∧ y' % g.height = y % g.height then (⟨v⟩ : Cell)
      else g.get_cell x' y') ∧
    (g.set_cell x y v).width = g.width ∧
    (g.set_cell x y v).height = g.height ∧
    (g.set_cell x y v).generation = g.generation ∧
    ((g.toggle_cell x y).1.get_cell x' y' =
      if x' % g.width = x % g.width ∧ y' % g.height = y % g.height then
        (⟨!(g.get_cell x y).is_alive⟩ : Cell)
      else g.get_cell x' y') ∧
    (g.toggle_cell x y).2 = !(g.get_cell x y).is_alive ∧
    (g.toggle_cell x y).1.width = g.width ∧
    (g.toggle_cell x y).1.height = g.height ∧
    (g.toggle_cell x y).1.generation = g.generation := by
  refine ⟨Grid.get_set hwf x y x' y' v, rfl, rfl, rfl, ?_, ?_, rfl, rfl, rfl⟩
  · rw [Grid.toggle_cell_eq]
    exact Grid.get_set hwf x y x' y' _
  · rw [Grid.toggle_cell_eq]

/-- Witness for C10 on a 3 x 2 grid: write at (0, 0), read back at the
wrapped coordinate (3, 2) and at an unrelated coordinate via instantiation
(x', y') = (3, 2). -/
theorem set_toggle_frame_spec_witness :
    (Grid.init 3 2).Wf ∧
    (((Grid.init 3 2).set_cell 0 0 true).get_cell 3 2 =
        (if (3 : Int) % (Grid.init 3 2).width = 0 % (Grid.init 3 2).width ∧
            (2 : Int) % (Grid.init 3 2).height = 0 % (Grid.init 3 2).height then
          (⟨true⟩ : Cell)
        else (Grid.init 3 2).get_cell 3 2) ∧
      ((Grid.init 3 2).set_cell 0 0 true).width = (Grid.init 3 2).width ∧
      ((Grid.init 3 2).set_cell 0 0 true).height = (Grid.init 3 2).height ∧
      ((Grid.init 3 2).set_cell 0 0 true).generation = (Grid.init 3 2).generation ∧
      (((Grid.init 3 2).toggle_cell 0 0).1.get_cell 3 2 =
        if (3 : Int) % (Grid.init 3 2).width = 0 % (Grid.init 3 2).width ∧
            (2 : Int) % (Grid.init 3 2).height = 0 % (Grid.init 3 2).height then
          (⟨!((Grid.init 3 2).get_cell 0 0).is_alive⟩ : Cell)
        else (Grid.init 3 2).get_cell 3 2) ∧
      ((Grid.init 3 2).toggle_cell 0 0).2 = !((Grid.init 3 2).get_cell 0 0).is_alive ∧
      ((Grid.init 3 2).toggle_cell 0 0).1.width = (Grid.init 3 2).width ∧
      ((Grid.init 3 2).toggle_cell 0 0).1.height = (Grid.init 3 2).height ∧
      ((Grid.init 3 2).toggle_cell 0 0).1.generation = (Grid.init 3 2).generation) :=
  ⟨by decide, set_toggle_frame_spec (Grid.init 3 2) (by decide) 0 0 3 2 true⟩
